import Mathlib

/-!
Verification of the AI-Powered-Presentation-Generator backend
(`backend/graph.py`, `backend/presentation.py`, `backend/schemas.py`).

The pipeline stages are embedded shallowly: the external generative-model
and web-search calls are abstracted as oracle parameters (`Option`-valued:
`none` models a raised exception), and all deterministic Python code
(deduplication, bucketing, list building, string splitting, deck layout)
is translated function by function. Python strings are modelled as
`List Char`, Python dicts as insertion-ordered association lists with
last-write-wins value semantics (exactly the guarantee CPython gives).
-/

set_option maxHeartbeats 1000000

/- ### Python string helpers -/

/-- Python whitespace characters stripped by `str.strip()` (ASCII range). -/
def isPySpace (c : Char) : Bool :=
  c = ' ' || c = '\t' || c = '\n' || c = '\x0d' || c = '\x0b' || c = '\x0c'

/-- Python `s.strip()`: remove leading and trailing whitespace. -/
def pyStrip (s : List Char) : List Char :=
  ((s.dropWhile isPySpace).reverse.dropWhile isPySpace).reverse

/-- Python `s.rstrip()`: remove trailing whitespace. -/
def pyRstrip (s : List Char) : List Char :=
  (s.reverse.dropWhile isPySpace).reverse

/-- Python `s.startswith(p)`. -/
def pyStartsWith (s p : List Char) : Bool :=
  s.take p.length = p

/-- Python `s.endswith(p)` (overlap with a prefix is allowed, exactly as
in Python: `"**".endswith("**")` is true). -/
def pyEndsWith (s p : List Char) : Bool :=
  p.length ≤ s.length && s.drop (s.length - p.length) = p

/-- Python `s[2:-2]` (as used on matched `**...**` / `__...__` segments). -/
def pySlice2m2 (s : List Char) : List Char :=
  (s.drop 2).take (s.length - 4)

/-- Python `s[:n] + "..." if len(s) > n else s`, the truncation pattern
used for the title slide (`n = 60`) and reference links (`n = 40`). -/
def pyTrunc (n : Nat) (s : List Char) : List Char :=
  if s.length > n then s.take n ++ "...".data else s

/-- Python `f"{n:02d}"` for the page badge number. -/
def pad2 (n : Nat) : List Char :=
  if n < 10 then '0' :: Nat.toDigits 10 n else Nat.toDigits 10 n

/- ### Web Searcher (`graph.py`, `web_search`) -/

/-- A Tavily search-result record, reduced to the fields the pipeline
reads.  Every record that survives the `"url" in res` filter carries a
`url` key; the rest of the payload is abstracted by `content`. -/
structure SearchResult where
  url : List Char
  content : List Char
deriving DecidableEq, Repr

/-- One step of the Python dict comprehension
`{res["url"]: res for res in all_results}`: CPython dict insertion keeps
the position of the first occurrence of a key and overwrites its value
(last write wins); a new key is appended at the end. -/
def dictInsert (d : List (List Char × SearchResult)) (r : SearchResult) :
    List (List Char × SearchResult) :=
  if r.url ∈ d.map Prod.fst then
    d.map (fun p => if p.1 = r.url then (p.1, r) else p)
  else
    d ++ [(r.url, r)]

/-- The dict built by `{res["url"]: res for res in all_results}`. -/
def dictOfResults (rs : List SearchResult) : List (List Char × SearchResult) :=
  rs.foldl dictInsert []

/-- `unique_results = list({res["url"]: res for res in all_results}.values())`
in `web_search`. -/
def unique_results (rs : List SearchResult) : List SearchResult :=
  (dictOfResults rs).map Prod.snd

/-- Well-formedness of the url-keyed dict: every entry's value carries the
entry's key as its url, and keys are distinct. -/
def DictWF (d : List (List Char × SearchResult)) : Prop :=
  (∀ p ∈ d, p.2.url = p.1) ∧ (d.map Prod.fst).Nodup

/- ### Data schemas (`schemas.py`) -/

/-- `ContextPoint`: a single distilled fact with its source url. -/
structure ContextPoint where
  fact : List Char
  source : List Char
deriving DecidableEq, Repr

/-- `SlidePlan`: the 7-slide outline produced by `plan_content`. -/
structure SlidePlan where
  title : List Char
  overview_title : List Char
  agenda_points : List (List Char)
  key_points : List (List Char)
  conclusion_title : List Char
deriving DecidableEq, Repr

/-- The flat fact record returned by the distillation model call
(local pydantic class `Fact` inside `summarize_results`). -/
structure FactRec where
  fact : List Char
  source : List Char
  slide_title : List Char
deriving DecidableEq, Repr

/-- `SlideContent`: title, bullet strings (possibly with `**`/`__`
markers and two-space indents) and an optional reference-url list. -/
structure SlideContent where
  title : List Char
  bullets : List (List Char)
  references : Option (List (List Char))
deriving DecidableEq, Repr

/- ### Fact Distiller (`graph.py`, `summarize_results`) -/

/-- `slide_titles = [plan.overview_title] + plan.key_points`. -/
def slide_titles (plan : SlidePlan) : List (List Char) :=
  plan.overview_title :: plan.key_points

/-- One step of the dict comprehension
`{title: [] for title in slide_titles}` (CPython semantics: a repeated
key keeps its first position and has its value overwritten with `[]`). -/
def initStep (d : List (List Char × List ContextPoint)) (t : List Char) :
    List (List Char × List ContextPoint) :=
  if t ∈ d.map Prod.fst then
    d.map (fun p => if p.1 = t then (p.1, ([] : List ContextPoint)) else p)
  else
    d ++ [(t, [])]

/-- The initial empty buckets `{title: [] for title in slide_titles}`. -/
def initBuckets (titles : List (List Char)) :
    List (List Char × List ContextPoint) :=
  titles.foldl initStep []

/-- One iteration of the bucketing loop in `summarize_results`: when
`fact.slide_title in context_by_slide`, append
`ContextPoint(fact=fact.fact, source=fact.source)` to that bucket;
otherwise the fact is dropped. -/
def bucketFact (d : List (List Char × List ContextPoint)) (f : FactRec) :
    List (List Char × List ContextPoint) :=
  if f.slide_title ∈ d.map Prod.fst then
    d.map (fun p =>
      if p.1 = f.slide_title then (p.1, p.2 ++ [⟨f.fact, f.source⟩]) else p)
  else d

/-- `context_by_slide` as built by the success path of
`summarize_results` from the model's flat fact list. -/
def context_by_slide (plan : SlidePlan) (facts : List FactRec) :
    List (List Char × List ContextPoint) :=
  facts.foldl bucketFact (initBuckets (slide_titles plan))

/-- The state fields written by `summarize_results`. -/
structure SummarizeOutput where
  structured_context : List (List Char × List ContextPoint)
  error : Option (List Char)
deriving DecidableEq, Repr

/-- `summarize_results`, with the structured-output model call abstracted
as an oracle: `none` models a raised exception (the `except` branch);
`some none` models a falsy `fact_list_obj` (then `facts = []`);
`some (some fs)` a successfully returned fact list. -/
def summarize_results (plan : SlidePlan)
    (callResult : Option (Option (List FactRec))) : SummarizeOutput :=
  match callResult with
  | none =>
      { structured_context := [],
        error := some "Failed to generate structured summary.".data }
  | some res =>
      let facts := match res with
        | some fs => fs
        | none => []
      { structured_context := context_by_slide plan facts, error := none }

/-- The static (unconditional) edge list of the LangGraph workflow, as
declared by the `workflow.add_edge` calls at the bottom of `graph.py`. -/
def workflow_edges : List (List Char × List Char) :=
  [("expand_queries".data, "web_search".data),
   ("web_search".data, "plan_content".data),
   ("plan_content".data, "summarize_results".data),
   ("summarize_results".data, "generate_slide_content".data),
   ("generate_slide_content".data, "create_presentation".data),
   ("create_presentation".data, "END".data)]

/-- Successor of a node in the compiled graph.  The graph has no
conditional edges, so the successor is a function of the node name alone,
independent of the pipeline state (in particular of the `error` field). -/
def next_node (n : List Char) : Option (List Char) :=
  (workflow_edges.find? (fun e => e.1 = n)).map Prod.snd

/- ### Slide Content Generator (`graph.py`, `generate_slide_content`) -/

/-- The slide appended for the `i`-th key point: the model call's result
when it succeeds, otherwise the `except` branch's placeholder
`SlideContent(title=slide_title, bullets=["Content generation failed."],
references=[])`. -/
def keySlide (genKey : Nat → Option SlideContent)
    (it : Nat × List Char) : SlideContent :=
  match genKey it.1 with
  | some sc => sc
  | none =>
      { title := it.2,
        bullets := ["Content generation failed.".data],
        references := some [] }

/-- The conclusion slide: the model call's result when it succeeds,
otherwise the placeholder with `bullets=["Summary generation failed."]`. -/
def concSlide (plan : SlidePlan) (genConc : Option SlideContent) : SlideContent :=
  match genConc with
  | some sc => sc
  | none =>
      { title := plan.conclusion_title,
        bullets := ["Summary generation failed.".data],
        references := some [] }

/-- `generate_slide_content`, with each generative call abstracted:
`genKey i` is the outcome of the model call issued for the `i`-th
key-point slide (`none` = exception) and `genConc` the outcome of the
conclusion-slide call.  The list is accumulated by `append` exactly as
`all_slide_contents` is in the source: title slide, overview slide (the
plan's agenda points as bullets), one slide per key point in plan order,
then the conclusion slide. -/
def generate_slide_content (plan : SlidePlan)
    (genKey : Nat → Option SlideContent) (genConc : Option SlideContent) :
    List SlideContent :=
  let acc : List SlideContent := []
  let acc := acc ++ [{ title := plan.title, bullets := [], references := some [] }]
  let acc := acc ++ [{ title := plan.overview_title, bullets := plan.agenda_points,
                       references := some [] }]
  let acc := plan.key_points.enum.foldl
    (fun a it => a ++ [keySlide genKey it]) acc
  acc ++ [concSlide plan genConc]

/- ### Deck Renderer (`presentation.py`) -/

/-- An RGB color (`RGBColor`), channel values 0–255. -/
structure Rgb where
  r : Nat
  g : Nat
  b : Nat
deriving DecidableEq, Repr

/-- A theme: the 4 colors of the `THEMES` table. -/
structure Theme where
  background : Rgb
  primary : Rgb
  secondary : Rgb
  accent : Rgb
deriving DecidableEq, Repr

/-- A font pair of the `THEME_FONTS` table. -/
structure FontPair where
  title : List Char
  body : List Char
deriving DecidableEq, Repr

/-- The `THEMES` table of `presentation.py`, in source order. -/
def THEMES : List (List Char × Theme) :=
  [("Minimalist_Dark".data,
      ⟨⟨18, 18, 18⟩, ⟨240, 240, 240⟩, ⟨0, 150, 255⟩, ⟨130, 130, 130⟩⟩),
   ("Business_Corporate".data,
      ⟨⟨245, 245, 245⟩, ⟨10, 30, 60⟩, ⟨0, 123, 255⟩, ⟨108, 117, 125⟩⟩),
   ("Education_Creative".data,
      ⟨⟨255, 253, 248⟩, ⟨50, 50, 50⟩, ⟨255, 110, 60⟩, ⟨120, 120, 120⟩⟩),
   ("Historical_Vintage".data,
      ⟨⟨245, 245, 220⟩, ⟨80, 50, 20⟩, ⟨139, 69, 19⟩, ⟨160, 82, 45⟩⟩),
   ("Technology_Futuristic".data,
      ⟨⟨10, 0, 25⟩, ⟨0, 255, 127⟩, ⟨190, 70, 255⟩, ⟨105, 105, 105⟩⟩),
   ("Environmental_Natural".data,
      ⟨⟨240, 255, 240⟩, ⟨0, 80, 0⟩, ⟨34, 139, 34⟩, ⟨107, 142, 35⟩⟩),
   ("default".data,
      ⟨⟨255, 255, 255⟩, ⟨0, 0, 0⟩, ⟨100, 100, 100⟩, ⟨150, 150, 150⟩⟩)]

/-- The `THEME_FONTS` table of `presentation.py`, in source order. -/
def THEME_FONTS : List (List Char × FontPair) :=
  [("Minimalist_Dark".data, ⟨"Segoe UI".data, "Calibri".data⟩),
   ("Business_Corporate".data, ⟨"Arial".data, "Helvetica".data⟩),
   ("Education_Creative".data, ⟨"Century Gothic".data, "Trebuchet MS".data⟩),
   ("Historical_Vintage".data, ⟨"Garamond".data, "Georgia".data⟩),
   ("Technology_Futuristic".data, ⟨"Tw Cen MT".data, "Verdana".data⟩),
   ("Environmental_Natural".data, ⟨"Rockwell".data, "Calibri".data⟩),
   ("default".data, ⟨"Segoe UI".data, "Calibri".data⟩)]

/-- `THEMES.get(template_name, THEMES["default"])`.  The inner fallback
value is unreachable: the `"default"` key is present in the table. -/
def themeGet (name : List Char) : Theme :=
  match THEMES.find? (fun e => e.1 = name) with
  | some e => e.2
  | none =>
      match THEMES.find? (fun e => e.1 = "default".data) with
      | some e => e.2
      | none => ⟨⟨255, 255, 255⟩, ⟨0, 0, 0⟩, ⟨100, 100, 100⟩, ⟨150, 150, 150⟩⟩

/-- `THEME_FONTS.get(template_name, THEME_FONTS["default"])`. -/
def fontsGet (name : List Char) : FontPair :=
  match THEME_FONTS.find? (fun e => e.1 = name) with
  | some e => e.2
  | none =>
      match THEME_FONTS.find? (fun e => e.1 = "default".data) with
      | some e => e.2
      | none => ⟨"Segoe UI".data, "Calibri".data⟩

/-- Scan for the first occurrence of the doubled marker `m m`; on success
return the characters before it and the remaining input after it.  This
is the lazy `.*?` of the regex `\*\*.*?\*\*|__.*?__`: the content stops
at the first closing marker, and may not span a newline (`.` does not
match a newline). -/
def findClose (m : Char) : List Char → Option (List Char × List Char)
  | a :: b :: rest =>
      if a = m ∧ b = m then some ([], rest)
      else if a = '\n' then none
      else
        match findClose m (b :: rest) with
        | some pr => some (a :: pr.1, pr.2)
        | none => none
  | _ => none

/-- Does a delimiter match of `re.split(r'(\*\*.*?\*\*|__.*?__)', ...)`
begin exactly at the head of `s`?  The alternation tries the bold
alternative first, as the regex engine does; the two alternatives have
mutually exclusive opening markers.  Returns (matched text including
markers, remaining input). -/
def tryMatch (s : List Char) : Option (List Char × List Char) :=
  match s with
  | '*' :: '*' :: rest =>
      (findClose '*' rest).map (fun pr => ('*' :: '*' :: (pr.1 ++ ['*', '*']), pr.2))
  | '_' :: '_' :: rest =>
      (findClose '_' rest).map (fun pr => ('_' :: '_' :: (pr.1 ++ ['_', '_']), pr.2))
  | _ => none

/-- Worker for `re.split` with a captured group: walk the input
left-to-right; at each position either a delimiter match starts (emit the
pending plain segment, then the captured delimiter segment) or advance
one character.  `fuel` only bounds recursion depth; since every step
consumes at least one character, `fuel = s.length` never runs out and the
fuel-exhausted branch is unreachable. -/
def reSplitFuel : Nat → List Char → List Char → List (List Char)
  | _, acc, [] => [acc.reverse]
  | 0, acc, s => [acc.reverse ++ s]
  | fuel + 1, acc, c :: rest =>
      match tryMatch (c :: rest) with
      | some pr => acc.reverse :: pr.1 :: reSplitFuel fuel [] pr.2
      | none => reSplitFuel fuel (c :: acc) rest

/-- `segments = re.split(r'(\*\*.*?\*\*|__.*?__)', clean_text)`: the
alternating list of plain and captured delimiter segments.  As in
Python, a plain segment between two adjacent delimiter matches, or before
a match at the start, or after a match at the end, is the empty string —
and the rendering loop emits a run for it all the same. -/
def reSplit (s : List Char) : List (List Char) :=
  reSplitFuel s.length [] s

/-- One rendered text run of a bullet paragraph. -/
structure TextRun where
  text : List Char
  bold : Bool
  underline : Bool
  color : Rgb
deriving DecidableEq, Repr

/-- The run built from one segment: a `**...**` segment is bold and
secondary-colored with the markers stripped, a `__...__` segment is
underlined (primary color), anything else is a plain primary-colored run
with the text kept verbatim. -/
def mkRun (primary secondary : Rgb) (seg : List Char) : TextRun :=
  if pyStartsWith seg ['*', '*'] && pyEndsWith seg ['*', '*'] then
    ⟨pySlice2m2 seg, true, false, secondary⟩
  else if pyStartsWith seg ['_', '_'] && pyEndsWith seg ['_', '_'] then
    ⟨pySlice2m2 seg, false, true, primary⟩
  else
    ⟨seg, false, false, primary⟩

/-- The bullet tokenizer of the renderer's body loop:
`clean_text = bullet_text.strip()` followed by the `re.split` and one run
per segment (empty segments included, as in the source loop). -/
def bulletRuns (primary secondary : Rgb) (bullet : List Char) : List TextRun :=
  (reSplit (pyStrip bullet)).map (mkRun primary secondary)

/-- The title-delimiter class `[:\-–]` of
`re.split(r'[:\-–]', slide_data.title, 1)`. -/
def isTitleDelim (c : Char) : Bool :=
  c = ':' || c = '-' || c = '–'

/-- `re.split(r'[:\-–]', title, 1)`: split at the first delimiter
character, at most once. -/
def splitTitleOnce : List Char → List Char → List (List Char)
  | acc, [] => [acc.reverse]
  | acc, c :: rest =>
      if isTitleDelim c then [acc.reverse, rest]
      else splitTitleOnce (c :: acc) rest

/-- One rendered run of a content-slide title. -/
structure TitleRun where
  text : List Char
  color : Rgb
deriving DecidableEq, Repr

/-- The content-slide title runs: the head part (stripped) in the primary
color always; when the split produced a second part, a second run
`" - " + tail.strip()` in the secondary color. -/
def titleRuns (primary secondary : Rgb) (title : List Char) : List TitleRun :=
  let parts := splitTitleOnce [] title
  let run1 : TitleRun := ⟨pyStrip (parts.headD []), primary⟩
  if parts.length > 1 then
    [run1, ⟨' ' :: '-' :: ' ' :: pyStrip (parts.getD 1 []), secondary⟩]
  else [run1]

/-- The reference-link run texts of a content slide: nothing when
`slide_data.references` is falsy (`None` or `[]`), else the first 2 urls
each truncated to 40 characters with an ellipsis. -/
def refsRuns (refs : Option (List (List Char))) : List (List Char) :=
  match refs with
  | none => []
  | some rs => if rs = [] then [] else (rs.take 2).map (pyTrunc 40)

/-- A rendered slide, keeping the text-bearing fields the spec talks
about: the title slide (truncated title text and `Presented by` line),
one slide per content entry (uppercased topic header, two-color title
runs, per-bullet indent level and markup runs, reference-link texts,
page badge text and its luminance-chosen text color), and the closing
slide. -/
inductive DeckSlide
  | titleSlide (titleText : List Char) (subtitleText : List Char)
  | contentSlide (header : List Char) (title : List TitleRun)
      (body : List (Nat × List TextRun)) (refs : List (List Char))
      (pageText : List Char) (pageTextWhite : Bool)
  | closingSlide (mainText : List Char) (subText : List Char)
deriving DecidableEq, Repr

/-- The content slide rendered for `slide_data` at loop index `i`
(`enumerate(slide_contents[1:], start=1)`), with the resolved theme. -/
def contentSlide (topic : List Char) (theme : Theme) (i : Nat)
    (sd : SlideContent) : DeckSlide :=
  DeckSlide.contentSlide
    (topic.map Char.toUpper)
    (titleRuns theme.primary theme.secondary sd.title)
    (sd.bullets.map (fun b =>
      ((if pyStartsWith b [' ', ' '] then 1 else 0),
       bulletRuns theme.primary theme.secondary b)))
    (refsRuns sd.references)
    ("Page No. ".data ++ pad2 (i + 1))
    (theme.secondary.r + theme.secondary.g + theme.secondary.b < 382)

/-- `create_presentation_file`: resolve the theme, render the title
slide (its text is `slide_contents[0].title` when the list is non-empty,
else the topic, truncated to 60 characters), one content slide per entry
of `slide_contents[1:]`, the closing slide, and return the deck together
with the saved file path
`outputs/{sanitized topic}_{template_name}.pptx`. -/
def create_presentation_file (topic presenter_name template_name : List Char)
    (slide_contents : List SlideContent) : List DeckSlide × List Char :=
  let theme := themeGet template_name
  let title_text := match slide_contents with
    | sc :: _ => sc.title
    | [] => topic
  let firstSlide := DeckSlide.titleSlide (pyTrunc 60 title_text)
    ("Presented by ".data ++ presenter_name)
  let contentSlides := (slide_contents.drop 1).enum.map
    (fun it => contentSlide topic theme (it.1 + 1) it.2)
  let closing := DeckSlide.closingSlide "Thank You".data
    "Questions & Discussion".data
  let safe_topic := pyRstrip (topic.filter
    (fun c => c.isAlphanum || c = ' ' || c = '-' || c = '_'))
  let file_path := "outputs/".data ++ safe_topic ++ ['_'] ++ template_name
    ++ ".pptx".data
  (firstSlide :: contentSlides ++ [closing], file_path)

/- ### Theorems: Web Searcher deduplication (C1) -/

theorem dictInsert_wf {d : List (List Char × SearchResult)} (r : SearchResult)
    (h : DictWF d) : DictWF (dictInsert d r) := by
  obtain ⟨hval, hnd⟩ := h
  unfold dictInsert
  split
  · constructor
    · intro p hp
      simp only [List.mem_map] at hp
      obtain ⟨q, hq, hpq⟩ := hp
      by_cases hk : q.1 = r.url
      · rw [if_pos hk] at hpq
        rw [← hpq]
        exact hk.symm
      · rw [if_neg hk] at hpq
        rw [← hpq]
        exact hval q hq
    · have hkeys : (d.map (fun p => if p.1 = r.url then (p.1, r) else p)).map Prod.fst
          = d.map Prod.fst := by
        simp only [List.map_map]
        apply List.map_congr_left
        intro p _
        by_cases hk : p.1 = r.url <;> simp [hk]
      rw [hkeys]; exact hnd
  · constructor
    · intro p hp
      rcases List.mem_append.1 hp with h1 | h1
      · exact hval p h1
      · simp only [List.mem_singleton] at h1
        subst h1; rfl
    · rw [List.map_append, List.nodup_append]
      refine ⟨hnd, by simp, ?_⟩
      intro a ha hb
      simp only [List.map_cons, List.map_nil, List.mem_singleton] at hb
      subst hb
      rename_i hnotin
      exact hnotin ha

/-- If no key of `d` equals `r.url`, the value-overwriting map is the
identity on `d`. -/
theorem replaceVal_id (r : SearchResult) (d : List (List Char × SearchResult))
    (h : r.url ∉ d.map Prod.fst) :
    d.map (fun p => if p.1 = r.url then (p.1, r) else p) = d := by
  have heq : ∀ p ∈ d, (if p.1 = r.url then (p.1, r) else p) = p := by
    intro p hp
    rw [if_neg]
    intro hc
    exact h (hc ▸ List.mem_map.2 ⟨p, hp, rfl⟩)
  have h2 : d.map (fun p => if p.1 = r.url then (p.1, r) else p) = d.map id :=
    List.map_congr_left heq
  rw [h2, List.map_id]

/-- Values after overwriting the entry at key `r.url` (when present) with
`r`, restricted to url `u`. -/
theorem replaceVal_filter (r : SearchResult) (u : List Char)
    (d : List (List Char × SearchResult))
    (hval : ∀ p ∈ d, p.2.url = p.1) (hnd : (d.map Prod.fst).Nodup) :
    ((d.map (fun p => if p.1 = r.url then (p.1, r) else p)).map Prod.snd).filter
        (fun x => x.url = u) =
      if r.url = u then (if r.url ∈ d.map Prod.fst then [r] else [])
      else (d.map Prod.snd).filter (fun x => x.url = u) := by
  induction d with
  | nil => by_cases hu : r.url = u <;> simp [hu]
  | cons p tl ih =>
    have hvtl : ∀ q ∈ tl, q.2.url = q.1 := fun q hq => hval q (List.mem_cons_of_mem p hq)
    have hndtl : (tl.map Prod.fst).Nodup := by
      rw [List.map_cons] at hnd
      exact (List.nodup_cons.1 hnd).2
    have hpnotin : p.1 ∉ tl.map Prod.fst := by
      rw [List.map_cons] at hnd
      exact (List.nodup_cons.1 hnd).1
    have hp2 : p.2.url = p.1 := hval p (List.mem_cons_self p tl)
    simp only [List.map_cons]
    by_cases hp : p.1 = r.url
    · rw [if_pos hp, replaceVal_id r tl (hp ▸ hpnotin)]
      by_cases hu : r.url = u
      · rw [List.filter_cons_of_pos (by simp [hu]), if_pos hu,
          if_pos (List.mem_cons.2 (Or.inl hp.symm))]
        have htl0 : (tl.map Prod.snd).filter (fun x => (x.url = u : Bool)) = [] := by
          apply List.filter_eq_nil_iff.2
          intro x hx
          obtain ⟨q, hq, rfl⟩ := List.mem_map.1 hx
          simp only [decide_eq_true_eq]
          rw [hvtl q hq]
          intro hc
          apply hpnotin
          have hpq : p.1 = q.1 := by rw [hp, hu, hc]
          exact hpq ▸ List.mem_map.2 ⟨q, hq, rfl⟩
        rw [htl0]
      · rw [List.filter_cons_of_neg (by simp [hu]), if_neg hu,
          List.filter_cons_of_neg (by simp only [decide_eq_true_eq]; rw [hp2, hp]; exact hu)]
    · rw [if_neg hp]
      by_cases hu : r.url = u
      · rw [if_pos hu]
        have hph : ¬ (p.2.url = u) := by
          rw [hp2, ← hu]
          exact hp
        rw [List.filter_cons_of_neg (by simp [hph]), ih hvtl hndtl, if_pos hu]
        have hiff : (r.url ∈ p.1 :: tl.map Prod.fst) ↔ (r.url ∈ tl.map Prod.fst) := by
          constructor
          · intro hh
            rcases List.mem_cons.1 hh with hh1 | hh1
            · exact absurd hh1.symm hp
            · exact hh1
          · exact List.mem_cons_of_mem p.1
        by_cases hmem : r.url ∈ tl.map Prod.fst
        · rw [if_pos hmem, if_pos (hiff.2 hmem)]
        · rw [if_neg hmem, if_neg (fun hc => hmem (hiff.1 hc))]
      · rw [if_neg hu]
        by_cases hph : p.2.url = u
        · rw [List.filter_cons_of_pos (by simp [hph]), List.filter_cons_of_pos (by simp [hph]),
            ih hvtl hndtl, if_neg hu]
        · rw [List.filter_cons_of_neg (by simp [hph]), List.filter_cons_of_neg (by simp [hph]),
            ih hvtl hndtl, if_neg hu]

/-- Values of the dict after one comprehension step, restricted to url `u`:
the freshly inserted record wins at its own url and nothing else changes. -/
theorem dictInsert_filter (d : List (List Char × SearchResult))
    (r : SearchResult) (u : List Char) (h : DictWF d) :
    ((dictInsert d r).map Prod.snd).filter (fun x => x.url = u) =
      if r.url = u then [r]
      else (d.map Prod.snd).filter (fun x => x.url = u) := by
  obtain ⟨hval, hnd⟩ := h
  unfold dictInsert
  by_cases hmem : r.url ∈ d.map Prod.fst
  · rw [if_pos hmem, replaceVal_filter r u d hval hnd]
    by_cases hu : r.url = u
    · rw [if_pos hu, if_pos hu, if_pos hmem]
    · rw [if_neg hu, if_neg hu]
  · rw [if_neg hmem, List.map_append, List.filter_append]
    have hd0 : ∀ x ∈ d.map Prod.snd, x.url = u → r.url ≠ u := by
      intro x hx hxu hru
      obtain ⟨q, hq, rfl⟩ := List.mem_map.1 hx
      apply hmem
      have hq1 : r.url = q.1 := by rw [hru, ← hxu, hval q hq]
      exact hq1 ▸ List.mem_map.2 ⟨q, hq, rfl⟩
    by_cases hu : r.url = u
    · have hleft : (d.map Prod.snd).filter (fun x => (x.url = u : Bool)) = [] := by
        apply List.filter_eq_nil_iff.2
        intro x hx
        simp only [decide_eq_true_eq]
        intro hc
        exact hd0 x hx hc hu
      rw [hleft, if_pos hu, List.nil_append]
      simp [hu]
    · rw [if_neg hu]
      have hright : ([((r.url, r))].map Prod.snd).filter (fun x => (x.url = u : Bool)) = [] := by
        simp [hu]
      rw [hright, List.append_nil]

/-- Folding the dict comprehension over `rs` starting from a well-formed
dict `d`: for each url, the surviving value is the last matching record of
`rs`, falling back to the value already in `d`. -/
theorem foldl_dictInsert_filter (rs : List SearchResult)
    (d : List (List Char × SearchResult)) (u : List Char) (h : DictWF d) :
    ((rs.foldl dictInsert d).map Prod.snd).filter (fun x => x.url = u) =
      match rs.reverse.find? (fun x => x.url = u) with
      | some r => [r]
      | none => (d.map Prod.snd).filter (fun x => x.url = u) := by
  induction rs generalizing d with
  | nil => simp
  | cons r tl ih =>
    rw [List.foldl_cons]
    rw [ih (dictInsert d r) (dictInsert_wf r h)]
    rw [List.reverse_cons, List.find?_append]
    cases hfind : tl.reverse.find? (fun x => (x.url = u : Bool)) with
    | some x => simp
    | none =>
      simp only [Option.none_or]
      by_cases hru : r.url = u
      · rw [dictInsert_filter d r u h, if_pos hru]
        have hr1 : [r].find? (fun x => (x.url = u : Bool)) = some r := by
          simp [hru]
        rw [hr1]
      · rw [dictInsert_filter d r u h, if_neg hru]
        have hr1 : [r].find? (fun x => (x.url = u : Bool)) = none := by
          simp [hru]
        rw [hr1]

/-- C1: for every list of search-result records accumulated by
`web_search` and every url `u`, the deduplicated `unique_results` list
restricted to url `u` is exactly the singleton consisting of the last
record with url `u` in input order (and is empty when `u` never occurs):
the output has exactly one record per distinct url, and the record kept
for each url is the last one with that url in input order. -/
theorem web_search_dedup_last (rs : List SearchResult) (u : List Char) :
    (unique_results rs).filter (fun x => x.url = u) =
      (rs.reverse.find? (fun x => x.url = u)).toList := by
  have h := foldl_dictInsert_filter rs [] u ⟨by simp, by simp⟩
  unfold unique_results dictOfResults
  rw [h]
  cases rs.reverse.find? (fun x => (x.url = u : Bool)) <;> simp

example :
    unique_results [⟨['a'], ['1']⟩, ⟨['b'], ['2']⟩, ⟨['a'], ['3']⟩] =
      [⟨['a'], ['3']⟩, ⟨['b'], ['2']⟩] := by decide

/- ### Theorems: Fact Distiller bucketing (C2) and failure path (C8) -/

/-- Appending a fact to its bucket never changes the key list. -/
theorem bucketFact_keys (d : List (List Char × List ContextPoint)) (f : FactRec) :
    (bucketFact d f).map Prod.fst = d.map Prod.fst := by
  unfold bucketFact
  split
  · simp only [List.map_map]
    apply List.map_congr_left
    intro p _
    by_cases hk : p.1 = f.slide_title <;> simp [hk]
  · rfl

/-- The whole bucketing loop never changes the key list. -/
theorem foldl_bucketFact_keys (facts : List FactRec)
    (d : List (List Char × List ContextPoint)) :
    (facts.foldl bucketFact d).map Prod.fst = d.map Prod.fst := by
  induction facts generalizing d with
  | nil => rfl
  | cons f rest ih => rw [List.foldl_cons, ih, bucketFact_keys]

/-- Key membership after one step of the init comprehension. -/
theorem initStep_keys (d : List (List Char × List ContextPoint))
    (t u : List Char) :
    (u ∈ (initStep d t).map Prod.fst) ↔ (u ∈ d.map Prod.fst ∨ u = t) := by
  unfold initStep
  by_cases hmem : t ∈ d.map Prod.fst
  · rw [if_pos hmem]
    have hkeys : (d.map (fun p => if p.1 = t then (p.1, ([] : List ContextPoint)) else p)).map
        Prod.fst = d.map Prod.fst := by
      simp only [List.map_map]
      apply List.map_congr_left
      intro p _
      by_cases hk : p.1 = t <;> simp [hk]
    rw [hkeys]
    constructor
    · exact Or.inl
    · rintro (hh | hh)
      · exact hh
      · exact hh ▸ hmem
  · rw [if_neg hmem, List.map_append]
    simp [List.mem_append]

/-- Key membership of the initial buckets, generalized over the fold
accumulator. -/
theorem foldl_initStep_keys (titles : List (List Char)) :
    ∀ (d : List (List Char × List ContextPoint)) (u : List Char),
    (u ∈ (titles.foldl initStep d).map Prod.fst) ↔
      (u ∈ d.map Prod.fst ∨ u ∈ titles) := by
  induction titles with
  | nil => intro d u; simp
  | cons t rest ih =>
    intro d u
    rw [List.foldl_cons, ih (initStep d t) u, initStep_keys]
    constructor
    · rintro ((hh | hh) | hh)
      · exact Or.inl hh
      · exact Or.inr (List.mem_cons.2 (Or.inl hh))
      · exact Or.inr (List.mem_cons.2 (Or.inr hh))
    · rintro (hh | hh)
      · exact Or.inl (Or.inl hh)
      · rcases List.mem_cons.1 hh with hh1 | hh1
        · exact Or.inl (Or.inr hh1)
        · exact Or.inr hh1

/-- The key set of the initial buckets is exactly the title list. -/
theorem initBuckets_keys (titles : List (List Char)) (u : List Char) :
    (u ∈ (initBuckets titles).map Prod.fst) ↔ u ∈ titles := by
  unfold initBuckets
  rw [foldl_initStep_keys titles [] u]
  simp

/-- A fact whose assigned title is not a key is dropped. -/
theorem bucketFact_drop (d : List (List Char × List ContextPoint)) (f : FactRec)
    (h : f.slide_title ∉ d.map Prod.fst) : bucketFact d f = d := by
  unfold bucketFact
  rw [if_neg h]

/-- Discarding in advance every fact whose assigned title is not in
`titles` does not change the result of the bucketing loop, provided the
accumulator's keys are exactly `titles`. -/
theorem foldl_bucketFact_filter (titles : List (List Char)) (facts : List FactRec) :
    ∀ d : List (List Char × List ContextPoint),
    (∀ t, (t ∈ d.map Prod.fst) ↔ t ∈ titles) →
    (facts.filter (fun f => f.slide_title ∈ titles)).foldl bucketFact d =
      facts.foldl bucketFact d := by
  induction facts with
  | nil => intro d _; rfl
  | cons f rest ih =>
    intro d hd
    by_cases hf : f.slide_title ∈ titles
    · rw [List.filter_cons_of_pos (by simp [hf]), List.foldl_cons, List.foldl_cons]
      apply ih
      intro t
      rw [bucketFact_keys]
      exact hd t
    · rw [List.filter_cons_of_neg (by simp [hf]), List.foldl_cons,
        bucketFact_drop d f (fun hc => hf ((hd f.slide_title).1 hc))]
      exact ih d hd

/-- C2: for every `SlidePlan` and every fact list returned by the
distillation call, the `context_by_slide` mapping built by
`summarize_results` has key set exactly
`{overview title} ∪ {key-point titles}`, and a fact record whose
`slide_title` is outside that set lands in no bucket: removing all such
records from the input leaves the built mapping unchanged. -/
theorem summarize_results_bucket_closure (plan : SlidePlan) (facts : List FactRec) :
    (∀ t, (t ∈ (context_by_slide plan facts).map Prod.fst) ↔ t ∈ slide_titles plan)
    ∧ context_by_slide plan
        (facts.filter (fun f => f.slide_title ∈ slide_titles plan)) =
      context_by_slide plan facts := by
  constructor
  · intro t
    unfold context_by_slide
    rw [foldl_bucketFact_keys]
    exact initBuckets_keys (slide_titles plan) t
  · unfold context_by_slide
    exact foldl_bucketFact_filter (slide_titles plan) facts
      (initBuckets (slide_titles plan))
      (fun t => initBuckets_keys (slide_titles plan) t)

/-- C8: when the distillation model call raises, `summarize_results`
returns an empty `context_by_slide` mapping together with the error note,
and the compiled workflow still proceeds from `summarize_results` to
`generate_slide_content`: that edge is declared unconditionally, so the
successor does not depend on the pipeline state at all. -/
theorem summarize_results_failure_nonfatal (plan : SlidePlan) :
    summarize_results plan none =
      { structured_context := [],
        error := some "Failed to generate structured summary.".data }
    ∧ next_node "summarize_results".data = some "generate_slide_content".data := by
  exact ⟨rfl, by decide⟩

/- ### Theorems: Slide Content Generator (C3, C9) -/

/-- The append-accumulating fold used by `all_slide_contents`. -/
theorem foldl_append_singleton {α β : Type} (f : α → β) (l : List α) (acc : List β) :
    l.foldl (fun a x => a ++ [f x]) acc = acc ++ l.map f := by
  induction l generalizing acc with
  | nil => simp
  | cons x tl ih => simp [ih]

/-- Shape of the generated slide list: the two fixed slides, the
key-point slides in plan order, then the conclusion slide. -/
theorem generate_slide_content_eq (plan : SlidePlan)
    (genKey : Nat → Option SlideContent) (genConc : Option SlideContent) :
    generate_slide_content plan genKey genConc =
      { title := plan.title, bullets := [], references := some [] } ::
      { title := plan.overview_title, bullets := plan.agenda_points,
        references := some [] } ::
      (plan.key_points.enum.map (keySlide genKey) ++ [concSlide plan genConc]) := by
  simp only [generate_slide_content]
  rw [foldl_append_singleton]
  simp

/-- Index formula for the generated slide list. -/
theorem generate_slide_content_getElem (plan : SlidePlan)
    (genKey : Nat → Option SlideContent) (genConc : Option SlideContent) (k : Nat) :
    (generate_slide_content plan genKey genConc)[k]? =
      if k = 0 then
        some { title := plan.title, bullets := [], references := some [] }
      else if k = 1 then
        some { title := plan.overview_title, bullets := plan.agenda_points,
               references := some [] }
      else if k < 2 + plan.key_points.length then
        (plan.key_points[k - 2]?).map (fun t => keySlide genKey (k - 2, t))
      else if k = 2 + plan.key_points.length then some (concSlide plan genConc)
      else none := by
  rw [generate_slide_content_eq]
  match k with
  | 0 => simp
  | 1 => simp
  | n + 2 =>
    simp only [List.getElem?_cons_succ]
    rw [if_neg (by omega), if_neg (by omega)]
    by_cases hn : n < plan.key_points.length
    · rw [if_pos (by omega)]
      rw [List.getElem?_append_left (by simpa using hn)]
      have harith : n + 2 - 2 = n := by omega
      rw [harith]
      simp only [List.getElem?_map, List.getElem?_enum]
      cases plan.key_points[n]? with
      | none => rfl
      | some t => rfl
    · rw [if_neg (by omega)]
      have hBlen : (plan.key_points.enum.map (keySlide genKey)).length
          = plan.key_points.length := by simp
      rw [List.getElem?_append_right (by rw [hBlen]; omega), hBlen]
      by_cases hn2 : n = plan.key_points.length
      · rw [if_pos (by omega), hn2, Nat.sub_self]
        rfl
      · rw [if_neg (by omega)]
        have hge : 1 ≤ n - plan.key_points.length := by omega
        obtain ⟨m, hm⟩ := Nat.exists_eq_add_of_le hge
        rw [hm]
        simp

/-- C3: for a `SlidePlan` with exactly 4 key points,
`generate_slide_content` produces exactly 7 `SlideContent` entries in the
fixed order: the title slide (title only, empty bullets and references),
the overview slide (the plan's agenda points as bullets, no references),
one slide per key point in plan order (the `i`-th entry comes from the
`i`-th key-point model call, with the placeholder on failure), then the
conclusion slide. -/
theorem generate_slide_content_seven (plan : SlidePlan)
    (genKey : Nat → Option SlideContent) (genConc : Option SlideContent)
    (hlen : plan.key_points.length = 4) :
    (generate_slide_content plan genKey genConc).length = 7
    ∧ (generate_slide_content plan genKey genConc)[0]? =
        some { title := plan.title, bullets := [], references := some [] }
    ∧ (generate_slide_content plan genKey genConc)[1]? =
        some { title := plan.overview_title, bullets := plan.agenda_points,
               references := some [] }
    ∧ (∀ i, (hi : i < 4) →
        (generate_slide_content plan genKey genConc)[2 + i]? =
          some (keySlide genKey (i, plan.key_points.get ⟨i, by omega⟩)))
    ∧ (generate_slide_content plan genKey genConc)[6]? =
        some (concSlide plan genConc) := by
  refine ⟨?_, ?_, ?_, ?_, ?_⟩
  · rw [generate_slide_content_eq]
    simp [hlen]
  · rw [generate_slide_content_getElem]
    simp
  · rw [generate_slide_content_getElem]
    simp
  · intro i hi
    rw [generate_slide_content_getElem]
    rw [if_neg (by omega), if_neg (by omega), if_pos (by omega)]
    have harith : 2 + i - 2 = i := by omega
    rw [harith]
    have hget : plan.key_points[i]? = some (plan.key_points.get ⟨i, by omega⟩) := by
      rw [List.getElem?_eq_getElem (by omega)]
      simp
    rw [hget]
    rfl
  · rw [generate_slide_content_getElem]
    rw [if_neg (by omega), if_neg (by omega), if_neg (by omega), if_pos (by omega)]

/-- Witness for C3 at a concrete plan with 4 key points and both failing
and succeeding oracle outcomes exercised. -/
theorem generate_slide_content_seven_witness :
    (generate_slide_content
      ⟨"T".data, "O".data, ["a".data], ["k1".data, "k2".data, "k3".data, "k4".data],
        "C".data⟩
      (fun j => if j = 0 then none else some ⟨"S".data, [], none⟩)
      (some ⟨"C".data, [], none⟩)).length = 7 :=
  (generate_slide_content_seven
    ⟨"T".data, "O".data, ["a".data], ["k1".data, "k2".data, "k3".data, "k4".data],
      "C".data⟩
    (fun j => if j = 0 then none else some ⟨"S".data, [], none⟩)
    (some ⟨"C".data, [], none⟩) (by decide)).1

/-- C9: when the model call for the `i`-th key-point slide raises, the
generator emits at position `2 + i` a single `SlideContent` with the
planned key-point title, exactly the one fixed failure-notice bullet and
empty references; slides at every other position are unaffected by that
call (changing the oracle's answer at `i` alone changes nothing else).
Likewise for the conclusion call and position
`2 + plan.key_points.length`. -/
theorem generate_slide_failure_isolated (plan : SlidePlan)
    (genKey : Nat → Option SlideContent) (genConc : Option SlideContent)
    (i : Nat) (hi : i < plan.key_points.length) (hfail : genKey i = none) :
    (generate_slide_content plan genKey genConc)[2 + i]? =
      some { title := plan.key_points.get ⟨i, hi⟩,
             bullets := ["Content generation failed.".data],
             references := some [] }
    ∧ (∀ genKeyB : Nat → Option SlideContent,
        (∀ j, j ≠ i → genKeyB j = genKey j) →
        ∀ k, k ≠ 2 + i →
          (generate_slide_content plan genKeyB genConc)[k]? =
          (generate_slide_content plan genKey genConc)[k]?)
    ∧ (genConc = none →
        (generate_slide_content plan genKey genConc)[2 + plan.key_points.length]? =
          some { title := plan.conclusion_title,
                 bullets := ["Summary generation failed.".data],
                 references := some [] })
    ∧ (∀ genConcB : Option SlideContent, ∀ k,
        k ≠ 2 + plan.key_points.length →
          (generate_slide_content plan genKey genConcB)[k]? =
          (generate_slide_content plan genKey genConc)[k]?) := by
  refine ⟨?_, ?_, ?_, ?_⟩
  · rw [generate_slide_content_getElem]
    rw [if_neg (by omega), if_neg (by omega), if_pos (by omega)]
    have harith : 2 + i - 2 = i := by omega
    rw [harith, List.getElem?_eq_getElem hi]
    simp [keySlide, hfail]
  · intro genKeyB hagree k hk
    rw [generate_slide_content_getElem, generate_slide_content_getElem]
    by_cases h0 : k = 0
    · rw [if_pos h0, if_pos h0]
    · rw [if_neg h0, if_neg h0]
      by_cases h1 : k = 1
      · rw [if_pos h1, if_pos h1]
      · rw [if_neg h1, if_neg h1]
        by_cases h2 : k < 2 + plan.key_points.length
        · rw [if_pos h2, if_pos h2]
          cases hx : plan.key_points[k - 2]? with
          | none => rfl
          | some t =>
            have hag := hagree (k - 2) (by omega)
            simp [keySlide, hag]
        · rw [if_neg h2, if_neg h2]
  · intro hcfail
    rw [generate_slide_content_getElem]
    rw [if_neg (by omega), if_neg (by omega), if_neg (by omega), if_pos rfl]
    unfold concSlide
    rw [hcfail]
  · intro genConcB k hk
    rw [generate_slide_content_getElem, generate_slide_content_getElem]
    by_cases h0 : k = 0
    · rw [if_pos h0, if_pos h0]
    · rw [if_neg h0, if_neg h0]
      by_cases h1 : k = 1
      · rw [if_pos h1, if_pos h1]
      · rw [if_neg h1, if_neg h1]
        by_cases h2 : k < 2 + plan.key_points.length
        · rw [if_pos h2, if_pos h2]
        · rw [if_neg h2, if_neg h2, if_neg hk, if_neg hk]

/-- Witness for C9: a concrete plan whose first key-point call fails,
checked at position 2. -/
theorem generate_slide_failure_isolated_witness :
    (generate_slide_content
      ⟨"T".data, "O".data, ["a".data],
        ["k1".data, "k2".data, "k3".data, "k4".data], "C".data⟩
      (fun j => if j = 0 then none else some ⟨"S".data, [], none⟩)
      (some ⟨"C".data, [], none⟩))[2]? =
      some { title := "k1".data,
             bullets := ["Content generation failed.".data],
             references := some [] } :=
  (generate_slide_failure_isolated
    ⟨"T".data, "O".data, ["a".data],
      ["k1".data, "k2".data, "k3".data, "k4".data], "C".data⟩
    (fun j => if j = 0 then none else some ⟨"S".data, [], none⟩)
    (some ⟨"C".data, [], none⟩) 0 (by decide) rfl).1

/- ### Theorems: Deck Renderer title splitting (C5) -/

/-- Characterization of `re.split(r'[:\-–]', s, 1)`: when a delimiter
occurs, the head part is everything before the first delimiter and the
tail part everything after it; otherwise the whole string is the only
part. -/
theorem splitTitleOnce_spec (s : List Char) :
    ∀ acc : List Char,
    splitTitleOnce acc s =
      if s.any isTitleDelim then
        [acc.reverse ++ s.takeWhile (fun c => !isTitleDelim c),
         (s.dropWhile (fun c => !isTitleDelim c)).tail]
      else [acc.reverse ++ s] := by
  induction s with
  | nil => intro acc; simp [splitTitleOnce]
  | cons c rest ih =>
    intro acc
    by_cases hc : isTitleDelim c
    · simp [splitTitleOnce, hc]
    · simp only [splitTitleOnce, hc, if_false, Bool.false_eq_true]
      rw [ih (c :: acc)]
      by_cases hr : rest.any isTitleDelim
      · rw [if_pos hr, if_pos (by simp [hc, hr])]
        simp [hc]
      · rw [if_neg hr, if_neg (by simp [hc, hr])]
        simp [hc]

/-- C5: a content-slide title containing one of `:`, `-`, `–` is split at
the first such character into exactly 2 runs — the stripped head in the
primary color and `" - "` plus the stripped tail in the secondary color —
and a title without any such character renders as a single primary run. -/
theorem title_split_two_runs (primary secondary : Rgb) (title : List Char) :
    ((title.any isTitleDelim = true) →
      titleRuns primary secondary title =
        [⟨pyStrip (title.takeWhile (fun c => !isTitleDelim c)), primary⟩,
         ⟨' ' :: '-' :: ' ' ::
            pyStrip ((title.dropWhile (fun c => !isTitleDelim c)).tail),
          secondary⟩])
    ∧ ((title.any isTitleDelim = false) →
      titleRuns primary secondary title = [⟨pyStrip title, primary⟩]) := by
  constructor
  · intro h
    simp only [titleRuns]
    rw [splitTitleOnce_spec title []]
    simp [h]
  · intro h
    simp only [titleRuns]
    rw [splitTitleOnce_spec title []]
    simp [h]

/-- Witness for C5: a delimiter title splits in two runs, a plain title
stays a single run. -/
theorem title_split_two_runs_witness :
    titleRuns ⟨0, 0, 0⟩ ⟨100, 100, 100⟩ "A - B".data =
      [⟨"A".data, ⟨0, 0, 0⟩⟩, ⟨" - B".data, ⟨100, 100, 100⟩⟩]
    ∧ titleRuns ⟨0, 0, 0⟩ ⟨100, 100, 100⟩ "AB".data =
      [⟨"AB".data, ⟨0, 0, 0⟩⟩] := by
  constructor
  · rw [(title_split_two_runs ⟨0, 0, 0⟩ ⟨100, 100, 100⟩ "A - B".data).1 (by decide)]
    decide
  · rw [(title_split_two_runs ⟨0, 0, 0⟩ ⟨100, 100, 100⟩ "AB".data).2 (by decide)]
    decide

/- ### Theorems: theme fallback (C6) -/

/-- C6: any theme name absent from the `THEMES` table resolves — without
an error, since `dict.get` with a default is total — to exactly the same
4 colors and the same font pair as the explicit `"default"` theme. -/
theorem theme_unknown_fallback (name : List Char)
    (h : name ∉ THEMES.map Prod.fst) :
    themeGet name = themeGet "default".data
    ∧ fontsGet name = fontsGet "default".data := by
  have hfind : THEMES.find? (fun e => e.1 = name) = none := by
    rw [List.find?_eq_none]
    intro x hx
    simp only [decide_eq_true_eq]
    intro hc
    exact h (hc ▸ List.mem_map.2 ⟨x, hx, rfl⟩)
  have hfonts_keys : THEME_FONTS.map Prod.fst = THEMES.map Prod.fst := by decide
  have hfind2 : THEME_FONTS.find? (fun e => e.1 = name) = none := by
    rw [List.find?_eq_none]
    intro x hx
    simp only [decide_eq_true_eq]
    intro hc
    apply h
    rw [← hfonts_keys]
    exact hc ▸ List.mem_map.2 ⟨x, hx, rfl⟩
  constructor
  · unfold themeGet
    rw [hfind]
    decide
  · unfold fontsGet
    rw [hfind2]
    decide

/-- Witness for C6 at a name outside the table. -/
theorem theme_unknown_fallback_witness :
    themeGet "Neon_Noir".data = themeGet "default".data
    ∧ fontsGet "Neon_Noir".data = fontsGet "default".data :=
  theme_unknown_fallback "Neon_Noir".data (by decide)

/- ### Theorems: bullet markup tokenizer (C4) -/

example :
    reSplit "**Alpha** – __Beta__ gamma".data =
      [[], "**Alpha**".data, " – ".data, "__Beta__".data, " gamma".data] := by
  decide

/-- C4 counterexample: on the bullet string `"**Alpha** – __Beta__ gamma"`
the renderer's tokenizer does not produce 3 runs.  `re.split` with a
captured group emits the empty plain segment before the leading match and
the plain segment `" – "` between the two matches, and the rendering loop
adds a run for every segment, so there are 5 runs. -/
theorem bullet_markup_three_runs_counterexample :
    ¬ ((bulletRuns ⟨0, 0, 0⟩ ⟨100, 100, 100⟩
        "**Alpha** – __Beta__ gamma".data).length = 3) := by
  decide

/-- C4 amended: the bullet string `"**Alpha** – __Beta__ gamma"`
tokenizes into exactly 5 runs: an empty plain run, the bold run
`"Alpha"` (secondary color), the plain run `" – "`, the underline run
`"Beta"`, and the plain run `" gamma"` with the leading space preserved
outside the markers. -/
theorem bullet_markup_five_runs (primary secondary : Rgb) :
    bulletRuns primary secondary "**Alpha** – __Beta__ gamma".data =
      [⟨[], false, false, primary⟩,
       ⟨"Alpha".data, true, false, secondary⟩,
       ⟨" – ".data, false, false, primary⟩,
       ⟨"Beta".data, false, true, primary⟩,
       ⟨" gamma".data, false, false, primary⟩] := by
  rfl

/- ### Theorems: deck slide counts (C7, C10) -/

/-- C7 counterexample: a deck rendered from 7 `SlideContent` entries does
not contain 9 slides — the renderer emits 1 title slide, one content
slide per entry of `slide_contents[1:]` (6 of them) and 1 closing slide,
8 in total. -/
theorem deck_nine_slides_counterexample :
    ¬ (((create_presentation_file "t".data "p".data "default".data
        [⟨"a".data, [], none⟩, ⟨"b".data, [], none⟩, ⟨"c".data, [], none⟩,
         ⟨"d".data, [], none⟩, ⟨"e".data, [], none⟩, ⟨"f".data, [], none⟩,
         ⟨"g".data, [], none⟩]).1).length = 9) := by
  decide

/-- C7 amended: for every input list of exactly 7 `SlideContent` entries,
the saved deck contains exactly 8 slides (title slide, 6 content slides
for the entries after the first, closing slide). -/
theorem deck_eight_slides (topic presenter template : List Char)
    (cs : List SlideContent) (h : cs.length = 7) :
    ((create_presentation_file topic presenter template cs).1).length = 8 := by
  simp [create_presentation_file, h]

/-- Witness for the amended C7 count. -/
theorem deck_eight_slides_witness :
    ((create_presentation_file "t".data "p".data "default".data
        [⟨"a".data, [], none⟩, ⟨"b".data, [], none⟩, ⟨"c".data, [], none⟩,
         ⟨"d".data, [], none⟩, ⟨"e".data, [], none⟩, ⟨"f".data, [], none⟩,
         ⟨"g".data, [], none⟩]).1).length = 8 :=
  deck_eight_slides "t".data "p".data "default".data
    [⟨"a".data, [], none⟩, ⟨"b".data, [], none⟩, ⟨"c".data, [], none⟩,
     ⟨"d".data, [], none⟩, ⟨"e".data, [], none⟩, ⟨"f".data, [], none⟩,
     ⟨"g".data, [], none⟩] (by decide)

/-- C10: called with an empty `SlideContent` list, the renderer does not
error: the title slide takes its text from the topic string (with the
usual 60-character truncation), the deck has exactly 2 slides (title and
closing), and the saved file path is returned as usual. -/
theorem deck_empty_contents (topic presenter template : List Char) :
    (create_presentation_file topic presenter template []).1 =
      [DeckSlide.titleSlide (pyTrunc 60 topic)
        ("Presented by ".data ++ presenter),
       DeckSlide.closingSlide "Thank You".data "Questions & Discussion".data]
    ∧ (create_presentation_file topic presenter template []).2 =
      "outputs/".data ++
        pyRstrip (topic.filter
          (fun c => c.isAlphanum || c = ' ' || c = '-' || c = '_'))
        ++ ['_'] ++ template ++ ".pptx".data := by
  constructor <;> rfl

example : reSplit "___x___".data = [[], "___x__".data, ['_']] := by decide

example : reSplit "**a\nb**".data = ["**a\nb**".data] := by decide

example : reSplit "**__x__**".data = [[], "**__x__**".data, []] := by decide

example : splitTitleOnce [] "A - B".data = ["A ".data, " B".data] := by decide

example : splitTitleOnce [] "AB".data = ["AB".data] := by decide
